import Mathlib

/-!
Verification development for the PdfChallenge repository.

The Python source is shallowly embedded in Lean 4: strings are `List Char`,
Python floats are exact rationals (`ℚ`), dictionaries are association lists
in insertion order, and stateful loops are explicit recursions.  Machine
constants are modelled exactly: `math.log(10)` is the exact value of the
IEEE-754 double that Python computes for it.

Modelling conventions, used throughout:
* `str.lower()` is `Char.toLower` mapped over the characters (exact for the
  ASCII range the claims exercise; Unicode case mappings are out of scope).
* `str.strip()` drops leading/trailing whitespace characters.
* The regexes of the source are small and are compiled by hand into
  deterministic character-list matchers; each matcher's doc comment names
  the regex it implements.
* `list.sort(key=..., reverse=True)` (CPython's stable sort, descending)
  is `pySortDesc`, a stable descending insertion sort; a stable descending
  sort of a list is unique, so it agrees with CPython's timsort.
-/

set_option maxRecDepth 100000

namespace PdfChallenge

/-- Models Python `str.isspace` / the characters removed by `str.strip()`
(ASCII fragment: space, tab, CR, LF, vertical tab, form feed). -/
def pyIsSpace (c : Char) : Bool :=
  c.isWhitespace || c == '\x0b' || c == '\x0c'

/-- Models Python `str.strip()`: drop leading and trailing whitespace. -/
def pyStrip (l : List Char) : List Char :=
  ((l.dropWhile pyIsSpace).reverse.dropWhile pyIsSpace).reverse

/-- Models Python `str.lower()` (ASCII range). -/
def lowerL (l : List Char) : List Char :=
  l.map Char.toLower

/-- A Python regex word character (`\w`), ASCII fragment: `[a-zA-Z0-9_]`. -/
def isWordChar (c : Char) : Bool :=
  c.isAlphanum || c == '_'

/-- Accumulator pass for `wordRuns`: `acc` is the current (reversed) run of
word characters. -/
def wordRunsAux : List Char → List Char → List (List Char)
  | [], acc => if acc = [] then [] else [acc.reverse]
  | c :: t, acc =>
    if isWordChar c then wordRunsAux t (c :: acc)
    else if acc = [] then wordRunsAux t [] else acc.reverse :: wordRunsAux t []

/-- The maximal runs of word characters of a string, in order.  A match of
`\b[a-zA-Z]{2,}\b` is exactly a maximal word-character run that consists of
letters only and has length ≥ 2, so `re.findall` over these runs is modelled
by filtering `wordRuns`. -/
def wordRuns (l : List Char) : List (List Char) :=
  wordRunsAux l []

/-- Models `re.findall(r'\b[a-zA-Z]{2,}\b', text)`. -/
def regexTokens (text : List Char) : List (List Char) :=
  (wordRuns text).filter (fun r => 2 ≤ r.length && r.all Char.isAlpha)

/-- The stop-word set of `NLPAnalyzer._load_stop_words` (source lines 21–32),
transcribed verbatim. -/
def stopWords : List (List Char) :=
  [ "a", "an", "and", "are", "as", "at", "be", "by", "for", "from",
    "has", "he", "in", "is", "it", "its", "of", "on", "that", "the",
    "to", "was", "will", "with", "would", "have", "had", "been", "this",
    "these", "they", "were", "not", "or", "but", "can", "could", "should",
    "may", "might", "must", "shall", "do", "does", "did", "get", "got",
    "make", "made", "take", "took", "come", "came", "go", "went", "see",
    "saw", "know", "knew", "think", "thought", "say", "said", "tell",
    "told", "give", "gave", "find", "found", "work", "worked", "call",
    "called", "try", "tried", "ask", "asked", "need", "needed", "feel",
    "felt", "become", "became", "leave", "left", "put", "set"
  ].map String.toList

/-- `NLPAnalyzer._tokenize_and_clean` (source lines 68–79): find the
`\b[a-zA-Z]{2,}\b` matches of `text.lower()`, then keep tokens that are not
stop words and have length > 2. -/
def tokenizeAndClean (text : List Char) : List (List Char) :=
  let tokens := regexTokens (lowerL text)
  tokens.filter (fun token => !stopWords.contains token && 2 < token.length)

/-- Accumulator pass for `setList`: `seen` holds the elements already kept. -/
def dedupAux : List (List Char) → List (List Char) → List (List Char)
  | [], _ => []
  | x :: t, seen => if seen.contains x then dedupAux t seen else x :: dedupAux t (x :: seen)

/-- The distinct elements of a list, in first-occurrence order.  Python's
`set(...)` is modelled by this list: only cardinalities and sums over the
set are ever consumed, and those are independent of order. -/
def setList (l : List (List Char)) : List (List Char) :=
  dedupAux l []

/-- Models the Python substring test `needle in hay`. -/
def containsSub (hay needle : List Char) : Bool :=
  needle.isPrefixOf hay ||
    match hay with
    | [] => false
    | _ :: t => containsSub t needle

/-- `math.log(10)` as Python computes it: the exact value of the nearest
IEEE-754 double, `2592480341699211 / 2^50`. -/
def ln10 : ℚ := 2592480341699211 / 1125899906842624

/-- `NLPAnalyzer._calculate_token_overlap` (source lines 81–101): the average
of the Jaccard similarity of the token sets and the coverage of the target
set, 0 when the target token list is empty. -/
def calculateTokenOverlap (textTokens targetTokens : List (List Char)) : ℚ :=
  if targetTokens = [] then 0 else
  let textSet := setList textTokens
  let targetSet := setList targetTokens
  let inter := textSet.filter (fun t => targetSet.contains t)
  if targetSet = [] then 0 else
  let union := setList (textTokens ++ targetTokens)
  let jaccard := if union ≠ [] then (inter.length : ℚ) / union.length else 0
  let targetCoverage := (inter.length : ℚ) / targetSet.length
  (jaccard + targetCoverage) / 2

/-- `NLPAnalyzer._calculate_tfidf_score` (source lines 103–120): for each
distinct key term present in the text, accumulate
`term_frequency * math.log(10)`; the sum is clamped to 1. -/
def calculateTfidfScore (textTokens keyTerms : List (List Char)) : ℚ :=
  if keyTerms = [] ∨ textTokens = [] then 0 else
  let totalTokens : ℚ := textTokens.length
  let score := ((setList keyTerms).map (fun term =>
    if textTokens.contains term then ((textTokens.count term : ℚ) / totalTokens) * ln10 else 0)).sum
  min score 1

/-- The `domain_keywords` table of `NLPAnalyzer._calculate_domain_relevance`
(source lines 127–133), in Python dict insertion order. -/
def domainKeywords : List (List Char × List (List Char)) :=
  [ ("researcher".toList, ["research", "study", "analysis", "methodology", "results",
      "findings", "experiment", "data", "hypothesis", "conclusion"].map String.toList),
    ("student".toList, ["learn", "study", "understand", "concept", "theory",
      "example", "practice", "exercise", "homework", "exam"].map String.toList),
    ("analyst".toList, ["analysis", "data", "trend", "performance", "metrics",
      "insights", "report", "statistics", "evaluation", "assessment"].map String.toList),
    ("business".toList, ["strategy", "market", "revenue", "growth", "profit",
      "customer", "sales", "business", "company", "investment"].map String.toList),
    ("technical".toList, ["system", "implementation", "design", "architecture", "technology",
      "development", "software", "hardware", "algorithm", "code"].map String.toList) ]

/-- `NLPAnalyzer._calculate_domain_relevance` (source lines 122–159): extend
the keyword list by the lists of every domain whose name occurs in the
lower-cased persona; fall back to the job's tokens; score is the number of
keywords occurring as substrings of the lower-cased text divided by the
length of the keyword list, clamped to 1. -/
def calculateDomainRelevance (text persona job : List Char) : ℚ :=
  let textLower := lowerL text
  let personaLower := lowerL persona
  let relevantKeywords :=
    (domainKeywords.filter (fun d => containsSub personaLower d.1)).flatMap (·.2)
  let relevantKeywords :=
    if relevantKeywords = [] then tokenizeAndClean job else relevantKeywords
  let keywordMatches := (relevantKeywords.filter (fun k => containsSub textLower k)).length
  if relevantKeywords ≠ [] then
    min ((keywordMatches : ℚ) / relevantKeywords.length) 1
  else 0

/-- `NLPAnalyzer.calculate_relevance` (source lines 34–66): 0 for empty or
whitespace-only text and for text with no tokens, else the weighted sum of
the four sub-scores, capped at 1. -/
def calculateRelevance (text persona job : List Char) : ℚ :=
  if text = [] ∨ pyStrip text = [] then 0 else
  let textTokens := tokenizeAndClean (lowerL text)
  let personaTokens := tokenizeAndClean (lowerL persona)
  let jobTokens := tokenizeAndClean (lowerL job)
  if textTokens = [] then 0 else
  let personaScore := calculateTokenOverlap textTokens personaTokens
  let jobScore := calculateTokenOverlap textTokens jobTokens
  let keyTerms := personaTokens ++ jobTokens
  let tfidfScore := calculateTfidfScore textTokens keyTerms
  let domainScore := calculateDomainRelevance text persona job
  min (personaScore * (3/10) + jobScore * (4/10) + tfidfScore * (2/10) + domainScore * (1/10)) 1

/-- One insertion step of the stable descending sort: `x` is placed before
the first element whose key is ≤ its own, i.e. after every strictly greater
key and before every equal key (`x` stands earlier in the original list than
everything already sorted). -/
def insertDesc {α β : Type} [LinearOrder β] (key : α → β) (x : α) : List α → List α
  | [] => [x]
  | y :: t => if key x < key y then y :: insertDesc key x t else x :: y :: t

/-- Models CPython `list.sort(key=..., reverse=True)`: the stable descending
sort by `key`.  A stable descending sort is unique as a function of the
input list, so any stable implementation (CPython's timsort included) agrees
with this insertion sort; the theorems `pySortDesc_pairwise`,
`pySortDesc_perm` and `pySortDesc_filter_eq` below establish sortedness,
permutation and stability. -/
def pySortDesc {α β : Type} [LinearOrder β] (key : α → β) : List α → List α
  | [] => []
  | x :: t => insertDesc key x (pySortDesc key t)

/-- Is the character one of the sentence separators `[.!?]`? -/
def isSentSep (c : Char) : Bool :=
  c == '.' || c == '!' || c == '?'

/-- Accumulator pass for `splitSentences`: `acc` is the reversed current
piece, `inSep` records whether the previous character was a separator (a
run of separators produces a single split). -/
def splitSentAux : List Char → List Char → Bool → List (List Char)
  | [], acc, inSep => if inSep then [[]] else [acc.reverse]
  | c :: t, acc, inSep =>
    if isSentSep c then
      if inSep then splitSentAux t [] true
      else acc.reverse :: splitSentAux t [] true
    else
      splitSentAux t (c :: acc) false

/-- Models `re.split(r'[.!?]+', text)`. -/
def splitSentences (text : List Char) : List (List Char) :=
  splitSentAux text [] false

/-- `NLPAnalyzer.refine_text_for_persona` (source lines 161–190): texts
shorter than 50 characters pass through; otherwise sentences longer than
20 characters are scored, the top 3 are joined with `". "`, a 4th is
appended when the result is short, and a trailing period is ensured. -/
def refineTextForPersona (text persona job : List Char) : List Char :=
  if text = [] ∨ text.length < 50 then text else
  let sentences := splitSentences text
  let scoredSentences := sentences.filterMap (fun s =>
    let s := pyStrip s
    if 20 < s.length then some (s, calculateRelevance s persona job) else none)
  let sortedSentences := pySortDesc (·.2) scoredSentences
  let topSentences := (sortedSentences.take 3).map (·.1)
  let refinedText := List.intercalate ('.' :: ' ' :: []) topSentences
  let refinedText :=
    if refinedText.length < 100 ∧ 3 < sortedSentences.length then
      refinedText ++ '.' :: ' ' :: (sortedSentences.getD 3 ([], 0)).1
    else refinedText
  if refinedText ≠ [] ∧ refinedText.getLast? ≠ some '.' then pyStrip refinedText ++ ['.']
  else refinedText

/-- Regex `^[A-Z][A-Z\s]+$` of `_identify_sections` (ALL CAPS headings). -/
def matchAllCaps : List Char → Bool
  | [] => false
  | c :: rest => c.isUpper && !rest.isEmpty && rest.all (fun d => d.isUpper || pyIsSpace d)

/-- Regex `^\d+\.?\s+[A-Z].*` of `_identify_sections` (numbered sections).
The character classes of consecutive regex atoms are disjoint, so the
greedy deterministic parse below is the only possible one. -/
def matchNumbered (l : List Char) : Bool :=
  match l with
  | [] => false
  | c :: t =>
    c.isDigit &&
      (let rest := t.dropWhile Char.isDigit
       let rest := match rest with
         | '.' :: r => r
         | r => r
       match rest with
       | [] => false
       | d :: r2 =>
         pyIsSpace d &&
           (match r2.dropWhile pyIsSpace with
            | e :: _ => e.isUpper
            | [] => false))

/-- State machine for `^[A-Z][a-z]+(\s+[A-Z][a-z]+)*\s*$` (title-case
lines).  States: 0 = expect the first upper-case letter, 1 = after an
upper-case letter (need ≥ 1 lower), 2 = inside the lower-case run of a
word, 3 = inside whitespace after a complete word.  States 2 and 3 accept
at end of input. -/
def titleCaseAux : List Char → Nat → Bool
  | [], st => st == 2 || st == 3
  | c :: t, st =>
    if st == 0 then (if c.isUpper then titleCaseAux t 1 else false)
    else if st == 1 then (if c.isLower then titleCaseAux t 2 else false)
    else if st == 2 then
      (if c.isLower then titleCaseAux t 2
       else if pyIsSpace c then titleCaseAux t 3
       else false)
    else
      (if pyIsSpace c then titleCaseAux t 3
       else if c.isUpper then titleCaseAux t 1
       else false)

/-- Regex `^[A-Z][a-z]+(\s+[A-Z][a-z]+)*\s*$` of `_identify_sections`. -/
def matchTitleCase (l : List Char) : Bool :=
  titleCaseAux l 0

/-- The `\s+\d` tail shared by the `^(Chapter|Section|Part)\s+\d+` regex. -/
def chapterTail (r : List Char) : Bool :=
  match r with
  | [] => false
  | d :: r2 =>
    pyIsSpace d &&
      (match r2.dropWhile pyIsSpace with
       | e :: _ => e.isDigit
       | [] => false)

/-- Regex `^(Chapter|Section|Part)\s+\d+` of `_identify_sections`. -/
def matchChapter (l : List Char) : Bool :=
  ("Chapter".toList.isPrefixOf l && chapterTail (l.drop 7)) ||
  ("Section".toList.isPrefixOf l && chapterTail (l.drop 7)) ||
  ("Part".toList.isPrefixOf l && chapterTail (l.drop 4))

/-- A stripped line triggers a new section in `_identify_sections` iff it
matches one of the four `section_patterns` and is shorter than 100
characters (source lines 152–157). -/
def isHeaderLine (l : List Char) : Bool :=
  (matchAllCaps l || matchNumbered l || matchTitleCase l || matchChapter l) && l.length < 100

/-- Models Python `text.split('\n')` (keeps empty pieces). -/
def splitLinesAux : List Char → List Char → List (List Char)
  | [], acc => [acc.reverse]
  | c :: t, acc => if c = '\n' then acc.reverse :: splitLinesAux t [] else splitLinesAux t (c :: acc)

/-- Models Python `text.split('\n')`. -/
def splitLines (l : List Char) : List (List Char) :=
  splitLinesAux l []

/-- A section as accumulated by `Round1BProcessor._identify_sections`. -/
structure Section where
  document : List Char
  page : Nat
  title : List Char
  text : List Char
deriving DecidableEq

/-- The line loop of `_identify_sections` (source lines 144–185) for one
page: the accumulator is the current section's title and body; a heading
line with a non-empty accumulated body emits the section when the body
exceeds 100 characters and resets the accumulator; every other non-blank
line (headings over an empty body included) is appended to the body. -/
def sectionStep (docName : List Char) (pageNum : Nat) :
    List (List Char) → List Char → List Char → List Section
  | [], curTitle, curText =>
    if curText ≠ [] ∧ 100 < curText.length then
      [⟨docName, pageNum, curTitle, pyStrip curText⟩]
    else []
  | line :: rest, curTitle, curText =>
    let l := pyStrip line
    if l = [] then sectionStep docName pageNum rest curTitle curText
    else if isHeaderLine l ∧ curText ≠ [] then
      (if 100 < curText.length then [⟨docName, pageNum, curTitle, pyStrip curText⟩] else []) ++
        sectionStep docName pageNum rest l []
    else
      sectionStep docName pageNum rest curTitle (curText ++ l ++ [' '])

/-- `Round1BProcessor._identify_sections` (source lines 128–187).  The
page-dict of `extract_full_content` is modelled as an association list of
page number and (cleaned) page text, in insertion order; only the `text`
field of a page's record is consumed.  Each page restarts the accumulator
with title `"Introduction"` and an empty body. -/
def identifySections (content : List (Nat × List Char)) (documentName : List Char) :
    List Section :=
  content.flatMap (fun page =>
    sectionStep documentName page.1 (splitLines page.2) "Introduction".toList [])

/-- A scored section record of `_extract_relevant_sections`; as in the
source, `importance_rank` first holds the raw relevance score and is
overwritten with the 1-based rank for the retained sections. -/
structure ScoredSection where
  document : List Char
  page_number : Nat
  section_title : List Char
  importance_rank : ℚ
  text : List Char
deriving DecidableEq

/-- One successfully parsed document of `analyze_documents`: its file name
and its page-number-to-text content. -/
structure DocContent where
  file : List Char
  content : List (Nat × List Char)
deriving DecidableEq

/-- The `all_sections` list of `_extract_relevant_sections` (source lines
97–102): the sections of every document, in document order. -/
def allSectionsOf (docs : List DocContent) : List Section :=
  docs.flatMap (fun d => identifySections d.content d.file)

/-- The scored-section record built for one section in the loop of
`_extract_relevant_sections` (source lines 106–117): the relevance score
(computed on the full body) lands in `importance_rank` and the body is
truncated to 500 characters for output. -/
def toScoredSection (persona job : List Char) (s : Section) : ScoredSection :=
  { document := s.document, page_number := s.page, section_title := s.title,
    importance_rank := calculateRelevance s.text persona job,
    text := s.text.take 500 }

/-- The `scored_sections` list of `_extract_relevant_sections` (source
lines 105–117). -/
def scoredSectionsOf (docs : List DocContent) (persona job : List Char) :
    List ScoredSection :=
  (allSectionsOf docs).map (toScoredSection persona job)

/-- The `scored_sections.sort(key=..., reverse=True)` call of
`_extract_relevant_sections` (source line 120). -/
def sortByScoreDesc (l : List ScoredSection) : List ScoredSection :=
  pySortDesc (·.importance_rank) l

/-- The rank-assignment loop of `_extract_relevant_sections` (source lines
123–124): `importance_rank` of the i-th retained section becomes `i + 1`. -/
def assignRanks : Nat → List ScoredSection → List ScoredSection
  | _, [] => []
  | i, s :: t => { s with importance_rank := (i : ℚ) } :: assignRanks (i + 1) t

/-- `Round1BProcessor._extract_relevant_sections` (source lines 95–126). -/
def extractRelevantSections (docs : List DocContent) (persona job : List Char) :
    List ScoredSection :=
  assignRanks 1 ((sortByScoreDesc (scoredSectionsOf docs persona job)).take 20)

/-- `Round1BProcessor._extract_key_points` (source lines 213–229): split
into sentences, keep stripped sentences longer than 20 characters, score
each, return the top 5 by score. -/
def extractKeyPoints (text persona job : List Char) : List (List Char) :=
  let sentences := splitSentences text
  let scoredSentences := sentences.filterMap (fun s =>
    let s := pyStrip s
    if 20 < s.length then some (s, calculateRelevance s persona job) else none)
  let sorted := pySortDesc (·.2) scoredSentences
  (sorted.take 5).map (·.1)

/-- A refined-excerpt record of `_analyze_subsections`. -/
structure Subsection where
  document : List Char
  page_number : Nat
  refined_text : List Char
  relevance_score : Nat
deriving DecidableEq

/-- The refined-excerpt records built for one section in the loop of
`_analyze_subsections` (source lines 193–206): each key point of `text` is
refined and scored by the countdown index `len(key_points) - i`. -/
def subsectionEntries (persona job doc : List Char) (pn : Nat) (text : List Char) :
    List Subsection :=
  let keyPoints := extractKeyPoints text persona job
  keyPoints.enum.map (fun p =>
    { document := doc, page_number := pn,
      refined_text := refineTextForPersona p.2 persona job,
      relevance_score := keyPoints.length - p.1 })

/-- `Round1BProcessor._analyze_subsections` (source lines 189–211): for the
first 10 sections handed in, extract the key points of the section's `text`
field, refine each, score it by the countdown index, then keep the top 15
by that integer score. -/
def analyzeSubsections (sections : List ScoredSection) (persona job : List Char) :
    List Subsection :=
  let subsections := (sections.take 10).flatMap (fun sec =>
    subsectionEntries persona job sec.document sec.page_number sec.text)
  (pySortDesc (·.relevance_score) subsections).take 15

/-- The output record of `analyze_documents`; `processing_timestamp` is the
`datetime.now()` string, passed in as a parameter. -/
structure AnalysisResult where
  input_documents : List (List Char)
  persona : List Char
  job_to_be_done : List Char
  processing_timestamp : List Char
  extracted_sections : List ScoredSection
  subsection_analysis : List Subsection
deriving DecidableEq

/-- `Round1BProcessor.analyze_documents` (source lines 55–93).  PDF content
extraction is external I/O: each input file is modelled as its name paired
with `some content` when `extract_full_content` succeeds and `none` when it
raises.  Failed files are skipped (`continue`); when no file succeeds the
function raises `ValueError` (modelled as `Except.error`). -/
def analyzeDocuments (files : List (List Char × Option (List (Nat × List Char))))
    (persona job timestamp : List Char) : Except (List Char) AnalysisResult :=
  let documentsContent := files.filterMap (fun f =>
    f.2.map (fun content => DocContent.mk f.1 content))
  if documentsContent = [] then .error "No documents could be processed".toList else
  let relevantSections := extractRelevantSections documentsContent persona job
  let subsections := analyzeSubsections relevantSections persona job
  .ok { input_documents := documentsContent.map (·.file), persona := persona,
        job_to_be_done := job, processing_timestamp := timestamp,
        extracted_sections := relevantSections, subsection_analysis := subsections }

/-- The keyword list of the H1-indicator branch of
`_determine_heading_level` (source lines 353–356). -/
def headingKeywords : List (List Char) :=
  ["introduction", "overview", "conclusion", "summary", "references",
   "acknowledgements", "table of contents", "revision history"].map String.toList

/-- Regex `^\d+\.\s+[A-Z]` of `_determine_heading_level` (`N.` headings). -/
def matchNumDotSpaceCap (l : List Char) : Bool :=
  match l with
  | [] => false
  | c :: t =>
    c.isDigit &&
      (match t.dropWhile Char.isDigit with
       | '.' :: r =>
         (match r with
          | [] => false
          | d :: r2 =>
            pyIsSpace d &&
              (match r2.dropWhile pyIsSpace with
               | e :: _ => e.isUpper
               | [] => false))
       | _ => false)

/-- Regex `^\d+\.\d+\s+` of `_determine_heading_level` (`N.N` headings). -/
def matchNN (l : List Char) : Bool :=
  match l with
  | [] => false
  | c :: t =>
    c.isDigit &&
      (match t.dropWhile Char.isDigit with
       | '.' :: r =>
         (match r with
          | [] => false
          | d :: r2 =>
            d.isDigit &&
              (match r2.dropWhile Char.isDigit with
               | e :: _ => pyIsSpace e
               | [] => false))
       | _ => false)

/-- Regex `^\d+\.\d+\.\d+\s+` of `_determine_heading_level` (`N.N.N`). -/
def matchNNN (l : List Char) : Bool :=
  match l with
  | [] => false
  | c :: t =>
    c.isDigit &&
      (match t.dropWhile Char.isDigit with
       | '.' :: r =>
         (match r with
          | [] => false
          | d :: r2 =>
            d.isDigit &&
              (match r2.dropWhile Char.isDigit with
               | '.' :: r3 =>
                 (match r3 with
                  | [] => false
                  | e :: r4 =>
                    e.isDigit &&
                      (match r4.dropWhile Char.isDigit with
                       | f :: _ => pyIsSpace f
                       | [] => false))
               | _ => false)
          )
       | _ => false)

/-- `Round1AProcessor._determine_heading_level` (source lines 338–370):
base level 1/2/3 by font-size thresholds (`h3Thresh` and `isBold` are
accepted but never read, as in the source), then the content-pattern
branches: keyword or `N.` lines take `min base 1`; else `N.N` lines take
`min base 2`; else `N.N.N` lines are set to 3; finally `min base 3`.  The
source returns the string `f"H{level}"`; the numeric level is returned
here. -/
def determineHeadingLevel (text : List Char) (fontSize : ℚ) (isBold : Bool)
    (h1Thresh h2Thresh h3Thresh : ℚ) : Nat :=
  let baseLevel := if fontSize ≥ h1Thresh then 1 else if fontSize ≥ h2Thresh then 2 else 3
  let textLower := pyStrip (lowerL text)
  let baseLevel :=
    if headingKeywords.any (fun k => containsSub textLower k) || matchNumDotSpaceCap text then
      min baseLevel 1
    else if matchNN text then min baseLevel 2
    else if matchNNN text then 3
    else baseLevel
  min baseLevel 3

/-- Modelled from the spec (§4.2 domain score, the reading asserted by the
claim): the keyword set is the set-union of the keyword lists of every
matching domain, and the score divides the number of distinct matched
keywords by the size of that set. -/
def specDomainRelevanceUnion (text persona job : List Char) : ℚ :=
  let textLower := lowerL text
  let personaLower := lowerL persona
  let kws := setList ((domainKeywords.filter (fun d => containsSub personaLower d.1)).flatMap (·.2))
  let kws := if kws = [] then setList (tokenizeAndClean job) else kws
  if kws = [] then 0 else
  min (((kws.filter (fun k => containsSub textLower k)).length : ℚ) / kws.length) 1

/-- Modelled from the spec (§4.7, the reading asserted by the claim): the
ranking pipeline of `_extract_relevant_sections` but handing the subsection
refiner each retained section's pre-truncation body. -/
def extractRelevantSectionsPre (docs : List DocContent) (persona job : List Char) :
    List ScoredSection :=
  assignRanks 1 ((pySortDesc (·.importance_rank) ((allSectionsOf docs).map (fun s =>
    ({ document := s.document, page_number := s.page, section_title := s.title,
       importance_rank := calculateRelevance s.text persona job,
       text := s.text } : ScoredSection)))).take 20)

/-- Modelled from the spec (§4.6/§4.7 with the truncation point corrected):
rank all sections by relevance of the full body, stable-descending; for the
top 10, extract key points from the 500-character-truncated body, refine
each, score by countdown index, sort stable-descending and keep 15. -/
def specSubsectionAnalysisTrunc (docs : List DocContent) (persona job : List Char) :
    List Subsection :=
  let ranked := pySortDesc (fun s : Section => calculateRelevance s.text persona job)
    (allSectionsOf docs)
  let subsections := (ranked.take 10).flatMap (fun sec =>
    subsectionEntries persona job sec.document sec.page (sec.text.take 500))
  (pySortDesc (·.relevance_score) subsections).take 15

/-- A one-page document whose single 521-character body is a 480-character
sentence, a period, and a 40-character sentence.  Truncation to 500
characters cuts the second sentence to 19 characters (≤ 20, so it is
dropped from the key points), which separates the two truncation readings
of the subsection refiner. -/
def truncProbeDoc : DocContent :=
  ⟨"doc1.pdf".toList, [(1, List.replicate 480 'a' ++ '.' :: List.replicate 40 'b')]⟩

/-! ### Properties of the stable descending sort -/

theorem insertDesc_perm {α β : Type} [LinearOrder β] (key : α → β) (x : α) :
    ∀ l : List α, List.Perm (insertDesc key x l) (x :: l)
  | [] => List.Perm.refl _
  | y :: t => by
    unfold insertDesc
    by_cases h : key x < key y
    · simp only [if_pos h]
      exact ((insertDesc_perm key x t).cons y).trans (List.Perm.swap x y t)
    · simp only [if_neg h]
      exact List.Perm.refl _

theorem pySortDesc_perm {α β : Type} [LinearOrder β] (key : α → β) :
    ∀ l : List α, List.Perm (pySortDesc key l) l
  | [] => List.Perm.refl _
  | x :: t => by
    unfold pySortDesc
    exact (insertDesc_perm key x (pySortDesc key t)).trans ((pySortDesc_perm key t).cons x)

theorem mem_insertDesc {α β : Type} [LinearOrder β] {key : α → β} {x z : α} {l : List α}
    (h : z ∈ insertDesc key x l) : z = x ∨ z ∈ l :=
  (List.mem_cons).mp ((insertDesc_perm key x l).mem_iff.mp h)

theorem insertDesc_pairwise {α β : Type} [LinearOrder β] (key : α → β) (x : α) :
    ∀ {l : List α}, l.Pairwise (fun a b => key b ≤ key a) →
      (insertDesc key x l).Pairwise (fun a b => key b ≤ key a)
  | [], _ => by simp [insertDesc]
  | y :: t, h => by
    rw [List.pairwise_cons] at h
    obtain ⟨hy, ht⟩ := h
    unfold insertDesc
    by_cases hlt : key x < key y
    · simp only [if_pos hlt]
      rw [List.pairwise_cons]
      refine ⟨fun z hz => ?_, insertDesc_pairwise key x ht⟩
      rcases mem_insertDesc hz with rfl | hz
      · exact le_of_lt hlt
      · exact hy z hz
    · simp only [if_neg hlt]
      rw [List.pairwise_cons]
      refine ⟨fun z hz => ?_, List.pairwise_cons.mpr ⟨hy, ht⟩⟩
      rcases List.mem_cons.mp hz with rfl | hz
      · exact not_lt.mp hlt
      · exact le_trans (hy z hz) (not_lt.mp hlt)

theorem pySortDesc_pairwise {α β : Type} [LinearOrder β] (key : α → β) :
    ∀ l : List α, (pySortDesc key l).Pairwise (fun a b => key b ≤ key a)
  | [] => by simp [pySortDesc]
  | x :: t => by
    unfold pySortDesc
    exact insertDesc_pairwise key x (pySortDesc_pairwise key t)

theorem insertDesc_filter_eq {α β : Type} [LinearOrder β] (key : α → β) (x : α) (q : β) :
    ∀ l : List α, (insertDesc key x l).filter (fun a => decide (key a = q)) =
      if key x = q then x :: l.filter (fun a => decide (key a = q))
      else l.filter (fun a => decide (key a = q))
  | [] => by
    by_cases h : key x = q <;> simp [insertDesc, List.filter, h]
  | y :: t => by
    unfold insertDesc
    by_cases hlt : key x < key y
    · simp only [if_pos hlt]
      by_cases hx : key x = q
      · have hy : ¬ (key y = q) := by
          intro hy
          rw [hx, hy] at hlt
          exact lt_irrefl q hlt
        simp [List.filter_cons, hy, hx, insertDesc_filter_eq key x q t]
      · simp only [List.filter_cons]
        by_cases hy : key y = q <;>
          simp [hy, hx, insertDesc_filter_eq key x q t]
    · simp only [if_neg hlt]
      by_cases hx : key x = q <;> simp [List.filter_cons, hx]

theorem pySortDesc_filter_eq {α β : Type} [LinearOrder β] (key : α → β) (q : β) :
    ∀ l : List α, (pySortDesc key l).filter (fun a => decide (key a = q)) =
      l.filter (fun a => decide (key a = q))
  | [] => rfl
  | x :: t => by
    unfold pySortDesc
    rw [insertDesc_filter_eq key x q (pySortDesc key t), pySortDesc_filter_eq key q t]
    by_cases hx : key x = q <;> simp [List.filter_cons, hx]

/-! ### Non-negativity of the sub-scores -/

theorem calculateTokenOverlap_nonneg (xs ys : List (List Char)) :
    0 ≤ calculateTokenOverlap xs ys := by
  unfold calculateTokenOverlap
  dsimp only
  split
  · exact le_refl 0
  split
  · exact le_refl 0
  apply div_nonneg _ (by norm_num)
  apply add_nonneg
  · split
    · positivity
    · exact le_refl 0
  · positivity

theorem ln10_nonneg : 0 ≤ ln10 := by norm_num [ln10]

theorem calculateTfidfScore_nonneg (xs ks : List (List Char)) :
    0 ≤ calculateTfidfScore xs ks := by
  unfold calculateTfidfScore
  split
  · exact le_refl 0
  · apply le_min _ (by norm_num)
    apply List.sum_nonneg
    intro x hx
    obtain ⟨term, _, rfl⟩ := List.mem_map.mp hx
    split
    · exact mul_nonneg (by positivity) ln10_nonneg
    · exact le_refl 0

theorem calculateDomainRelevance_nonneg (t p j : List Char) :
    0 ≤ calculateDomainRelevance t p j := by
  unfold calculateDomainRelevance
  dsimp only
  split
  · split
    · exact le_min (by positivity) (by norm_num)
    · exact le_refl 0
  · exact le_min (by positivity) (by norm_num)

/-! ### Claim C1 -/

/-- C1: for every `(text, persona, job)`, `calculate_relevance` returns a
value in `[0, 1]`; it is exactly 0 when the text is empty, whitespace-only,
or tokenizes to no tokens, and otherwise equals
`min(1, 0.3·persona_overlap + 0.4·job_overlap + 0.2·tfidf_like + 0.1·domain)`. -/
theorem calculateRelevance_bounds_and_formula (text persona job : List Char) :
    (0 ≤ calculateRelevance text persona job ∧ calculateRelevance text persona job ≤ 1) ∧
    calculateRelevance text persona job =
      (if text = [] ∨ pyStrip text = [] ∨ tokenizeAndClean (lowerL text) = [] then 0
       else
        min (calculateTokenOverlap (tokenizeAndClean (lowerL text))
               (tokenizeAndClean (lowerL persona)) * (3/10) +
             calculateTokenOverlap (tokenizeAndClean (lowerL text))
               (tokenizeAndClean (lowerL job)) * (4/10) +
             calculateTfidfScore (tokenizeAndClean (lowerL text))
               (tokenizeAndClean (lowerL persona) ++ tokenizeAndClean (lowerL job)) * (2/10) +
             calculateDomainRelevance text persona job * (1/10)) 1) := by
  have key : calculateRelevance text persona job =
      (if text = [] ∨ pyStrip text = [] then 0
       else if tokenizeAndClean (lowerL text) = [] then 0
       else
        min (calculateTokenOverlap (tokenizeAndClean (lowerL text))
               (tokenizeAndClean (lowerL persona)) * (3/10) +
             calculateTokenOverlap (tokenizeAndClean (lowerL text))
               (tokenizeAndClean (lowerL job)) * (4/10) +
             calculateTfidfScore (tokenizeAndClean (lowerL text))
               (tokenizeAndClean (lowerL persona) ++ tokenizeAndClean (lowerL job)) * (2/10) +
             calculateDomainRelevance text persona job * (1/10)) 1) := rfl
  have hsum : 0 ≤ calculateTokenOverlap (tokenizeAndClean (lowerL text))
        (tokenizeAndClean (lowerL persona)) * (3/10) +
      calculateTokenOverlap (tokenizeAndClean (lowerL text))
        (tokenizeAndClean (lowerL job)) * (4/10) +
      calculateTfidfScore (tokenizeAndClean (lowerL text))
        (tokenizeAndClean (lowerL persona) ++ tokenizeAndClean (lowerL job)) * (2/10) +
      calculateDomainRelevance text persona job * (1/10) := by
    have h1 := calculateTokenOverlap_nonneg (tokenizeAndClean (lowerL text))
      (tokenizeAndClean (lowerL persona))
    have h2 := calculateTokenOverlap_nonneg (tokenizeAndClean (lowerL text))
      (tokenizeAndClean (lowerL job))
    have h3 := calculateTfidfScore_nonneg (tokenizeAndClean (lowerL text))
      (tokenizeAndClean (lowerL persona) ++ tokenizeAndClean (lowerL job))
    have h4 := calculateDomainRelevance_nonneg text persona job
    positivity
  constructor
  · rw [key]
    by_cases h1 : text = [] ∨ pyStrip text = []
    · rw [if_pos h1]
      exact ⟨le_refl 0, by norm_num⟩
    · rw [if_neg h1]
      by_cases h2 : tokenizeAndClean (lowerL text) = []
      · rw [if_pos h2]
        exact ⟨le_refl 0, by norm_num⟩
      · rw [if_neg h2]
        exact ⟨le_min hsum (by norm_num), min_le_right _ _⟩
  · rw [key]
    by_cases h1 : text = [] ∨ pyStrip text = []
    · rw [if_pos h1, if_pos (h1.elim (fun a => Or.inl a) (fun b => Or.inr (Or.inl b)))]
    · rw [if_neg h1]
      by_cases h2 : tokenizeAndClean (lowerL text) = []
      · rw [if_pos h2, if_pos (Or.inr (Or.inr h2))]
      · rw [if_neg h2, if_neg]
        intro hcon
        rcases hcon with ha | hb | hc
        · exact h1 (Or.inl ha)
        · exact h1 (Or.inr hb)
        · exact h2 hc

/-! ### Claim C7 -/

theorem mem_wordRunsAux :
    ∀ (l acc tok : List Char), tok ∈ wordRunsAux l acc → ∀ c ∈ tok, c ∈ l ∨ c ∈ acc := by
  intro l
  induction l with
  | nil =>
    intro acc tok h c hc
    unfold wordRunsAux at h
    by_cases ha : acc = []
    · simp [ha] at h
    · rw [if_neg ha] at h
      rcases List.mem_singleton.mp h with rfl
      exact Or.inr (List.mem_reverse.mp hc)
  | cons x t ih =>
    intro acc tok h c hc
    unfold wordRunsAux at h
    by_cases hw : isWordChar x
    · rw [if_pos hw] at h
      rcases ih (x :: acc) tok h c hc with h1 | h1
      · exact Or.inl (List.mem_cons_of_mem _ h1)
      · rcases List.mem_cons.mp h1 with rfl | h2
        · exact Or.inl (List.mem_cons_self _ _)
        · exact Or.inr h2
    · rw [if_neg hw] at h
      by_cases ha : acc = []
      · rw [if_pos ha] at h
        rcases ih [] tok h c hc with h1 | h1
        · exact Or.inl (List.mem_cons_of_mem _ h1)
        · simp at h1
      · rw [if_neg ha] at h
        rcases List.mem_cons.mp h with rfl | h2
        · exact Or.inr (List.mem_reverse.mp hc)
        · rcases ih [] tok h2 c hc with h1 | h1
          · exact Or.inl (List.mem_cons_of_mem _ h1)
          · simp at h1

theorem isUpper_toNat (c : Char) (h : c.isUpper = true) : 65 ≤ c.toNat ∧ c.toNat ≤ 90 := by
  simp only [Char.isUpper, Bool.and_eq_true, decide_eq_true_eq] at h
  exact ⟨UInt32.le_toNat_of_le (by decide) h.1, UInt32.toNat_le_of_le (by decide) h.2⟩

theorem isLower_toLower_of_isAlpha (c : Char) (h : (Char.toLower c).isAlpha = true) :
    (Char.toLower c).isLower = true := by
  unfold Char.toLower at *
  by_cases hc : c.toNat ≥ 65 ∧ c.toNat ≤ 90
  · rw [if_pos hc] at h ⊢
    obtain ⟨h1, h2⟩ := hc
    generalize c.toNat = n at h1 h2 ⊢
    interval_cases n <;> decide
  · rw [if_neg hc] at h ⊢
    simp only [Char.isAlpha, Bool.or_eq_true] at h
    rcases h with h | h
    · exact absurd (isUpper_toNat c h) hc
    · exact h

/-- C7: every token produced by the tokenizer has length > 2, consists only
of lower-case alphabetic characters, and is not in the stop-word set. -/
theorem tokenizeAndClean_wellformed (text tok : List Char) (h : tok ∈ tokenizeAndClean text) :
    2 < tok.length ∧ (∀ c ∈ tok, c.isLower = true) ∧ tok ∉ stopWords := by
  unfold tokenizeAndClean at h
  rw [List.mem_filter, Bool.and_eq_true] at h
  obtain ⟨hmem, hstop, hlen⟩ := h
  unfold regexTokens at hmem
  rw [List.mem_filter, Bool.and_eq_true] at hmem
  obtain ⟨hrun, _, hall⟩ := hmem
  refine ⟨by simpa using hlen, ?_, ?_⟩
  · intro c hc
    have hsrc : c ∈ lowerL text := by
      rcases mem_wordRunsAux (lowerL text) [] tok hrun c hc with h1 | h1
      · exact h1
      · simp at h1
    have halpha : c.isAlpha = true := by simpa using List.all_eq_true.mp hall c hc
    obtain ⟨d, _, rfl⟩ := List.mem_map.mp hsrc
    exact isLower_toLower_of_isAlpha d halpha
  · intro hmemstop
    rw [Bool.not_eq_true'] at hstop
    have hcont : stopWords.contains tok = true := List.elem_iff.mpr hmemstop
    rw [hstop] at hcont
    exact Bool.false_ne_true hcont

/-- Witness for C7 at a concrete input. -/
theorem tokenizeAndClean_wellformed_witness :
    2 < ("alpha".toList).length ∧ (∀ c ∈ "alpha".toList, c.isLower = true) ∧
      "alpha".toList ∉ stopWords :=
  tokenizeAndClean_wellformed "Alpha beta!".toList "alpha".toList (by decide)

/-! ### Claim C10 -/

/-- C10: for empty text or text shorter than 50 characters,
`refine_text_for_persona` returns the input unchanged. -/
theorem refineTextForPersona_short_identity (text persona job : List Char)
    (h : text = [] ∨ text.length < 50) :
    refineTextForPersona text persona job = text := by
  unfold refineTextForPersona
  rw [if_pos h]

/-- Witness for C10 at a concrete input. -/
theorem refineTextForPersona_short_identity_witness :
    refineTextForPersona "ab cd".toList "persona".toList "job".toList = "ab cd".toList :=
  refineTextForPersona_short_identity _ _ _ (Or.inr (by decide))

/-! ### Claim C9 -/

unseal Rat.add Rat.mul Rat.inv Rat.sub in
/-- C9: swapping the persona and job strings changes the relevance score
even when both have the same token overlap with the text (here both
overlaps are `3/8`, yet the scores are `41/80` and `45/80`). -/
theorem calculateRelevance_asymmetric :
    calculateTokenOverlap (tokenizeAndClean (lowerL "alpha gamma abetax".toList))
        (tokenizeAndClean (lowerL "alpha beta".toList)) =
      calculateTokenOverlap (tokenizeAndClean (lowerL "alpha gamma abetax".toList))
        (tokenizeAndClean (lowerL "gamma delta".toList)) ∧
    calculateRelevance "alpha gamma abetax".toList "alpha beta".toList "gamma delta".toList ≠
      calculateRelevance "alpha gamma abetax".toList "gamma delta".toList "alpha beta".toList := by
  decide

/-! ### Claim C6 -/

unseal Rat.add Rat.mul Rat.inv Rat.sub in
/-- C6 counterexample: with persona `"researcher analyst"` two domains
match, and the researcher and analyst lists share the keyword `analysis`;
the code counts it twice over the 20-entry concatenation (`2/20 = 1/10`),
while the claimed set-union semantics would give `1/18`. -/
theorem domainRelevance_union_counterexample :
    specDomainRelevanceUnion "analysis".toList "researcher analyst".toList "job".toList = 1/18 ∧
    calculateDomainRelevance "analysis".toList "researcher analyst".toList "job".toList = 1/10 ∧
    ((1:ℚ)/18) ≠ 1/10 := by decide

/-- C6 (amended): the keyword list is the concatenation, with multiplicity,
of the keyword lists of all matching domains (falling back to the job's
tokens); the score is the number of list entries occurring as substrings of
the lower-cased text divided by the list length, clamped to 1, and 0 when
the list is empty; the result is always in `[0, 1]`. -/
theorem calculateDomainRelevance_concat_spec (text persona job : List Char) :
    (calculateDomainRelevance text persona job =
      (let kws := (domainKeywords.filter (fun d => containsSub (lowerL persona) d.1)).flatMap (·.2)
       let kws := if kws = [] then tokenizeAndClean job else kws
       if kws = [] then 0
       else min (((kws.filter (fun k => containsSub (lowerL text) k)).length : ℚ) / kws.length) 1)) ∧
    0 ≤ calculateDomainRelevance text persona job ∧
    calculateDomainRelevance text persona job ≤ 1 := by
  refine ⟨?_, calculateDomainRelevance_nonneg text persona job, ?_⟩
  · unfold calculateDomainRelevance
    dsimp only
    by_cases h0 : ((domainKeywords.filter
        (fun d => containsSub (lowerL persona) d.1)).flatMap (·.2)) = []
    · by_cases h1 : tokenizeAndClean job = [] <;> simp [h0, h1]
    · simp [h0]
  · unfold calculateDomainRelevance
    dsimp only
    split
    · split
      · exact min_le_right _ _
      · norm_num
    · exact min_le_right _ _

/-! ### Claim C5 -/

/-- C5 counterexample: the line `"1.1 Background"` matches the `N.N`
pattern, yet with a font size clearing the H1 threshold the code returns
level 1 (`min(1, 2)`), not the claimed forced level 2. -/
theorem headingLevel_nn_counterexample :
    matchNN "1.1 Background".toList = true ∧
    determineHeadingLevel "1.1 Background".toList 20 false 16 14 12 = 1 := by decide

/-- C5 (amended): the final level is always in `{1, 2, 3}`; keyword lines
and `N.`-style lines get level 1; `N.N` lines (no keyword, no `N.` match)
get `min(font-based level, 2)` — a downward cap, not a forced 2; `N.N.N`
lines (no keyword, no earlier numbering match) are forced to level 3. -/
theorem determineHeadingLevel_spec (text : List Char) (fontSize : ℚ) (isBold : Bool)
    (h1 h2 h3 : ℚ) :
    (1 ≤ determineHeadingLevel text fontSize isBold h1 h2 h3 ∧
      determineHeadingLevel text fontSize isBold h1 h2 h3 ≤ 3) ∧
    ((headingKeywords.any (fun k => containsSub (pyStrip (lowerL text)) k) = true ∨
        matchNumDotSpaceCap text = true) →
      determineHeadingLevel text fontSize isBold h1 h2 h3 = 1) ∧
    (headingKeywords.any (fun k => containsSub (pyStrip (lowerL text)) k) = false →
      matchNumDotSpaceCap text = false → matchNN text = true →
      determineHeadingLevel text fontSize isBold h1 h2 h3 =
        min (if fontSize ≥ h1 then 1 else if fontSize ≥ h2 then 2 else 3) 2) ∧
    (headingKeywords.any (fun k => containsSub (pyStrip (lowerL text)) k) = false →
      matchNumDotSpaceCap text = false → matchNN text = false → matchNNN text = true →
      determineHeadingLevel text fontSize isBold h1 h2 h3 = 3) := by
  unfold determineHeadingLevel
  dsimp only
  have hbase : (1 ≤ (if fontSize ≥ h1 then (1:ℕ) else if fontSize ≥ h2 then 2 else 3)) ∧
      ((if fontSize ≥ h1 then (1:ℕ) else if fontSize ≥ h2 then 2 else 3) ≤ 3) := by
    split
    · exact ⟨le_refl 1, by norm_num⟩
    · split
      · exact ⟨by norm_num, by norm_num⟩
      · exact ⟨by norm_num, le_refl 3⟩
  obtain ⟨hb1, hb3⟩ := hbase
  refine ⟨?_, ?_, ?_, ?_⟩
  · split
    · omega
    · split
      · omega
      · split
        · omega
        · omega
  · intro h
    have hcond : (headingKeywords.any (fun k => containsSub (pyStrip (lowerL text)) k) ||
        matchNumDotSpaceCap text) = true := by
      rcases h with h | h <;> simp [h]
    rw [if_pos hcond]
    omega
  · intro ha hn hnn
    rw [if_neg (by simp [ha, hn]), if_pos hnn]
    omega
  · intro ha hn hnn hnnn
    rw [if_neg (by simp [ha, hn]), if_neg (by simp [hnn]), if_pos hnnn]
    omega

/-- Witness for C5 at concrete inputs (single small font size, so the
font-based level is 3): `"1. Intro"` gets level 1, `"1.1 Background"` gets
`min(3, 2) = 2`, `"1.1.1 Detail"` gets level 3. -/
theorem determineHeadingLevel_spec_witness :
    determineHeadingLevel "1. Intro".toList 10 false 16 14 12 = 1 ∧
    determineHeadingLevel "1.1 Background".toList 10 false 16 14 12 =
      min (if (10:ℚ) ≥ 16 then 1 else if (10:ℚ) ≥ 14 then 2 else 3) 2 ∧
    determineHeadingLevel "1.1.1 Detail".toList 10 false 16 14 12 = 3 :=
  ⟨(determineHeadingLevel_spec "1. Intro".toList 10 false 16 14 12).2.1 (Or.inr (by decide)),
   (determineHeadingLevel_spec "1.1 Background".toList 10 false 16 14 12).2.2.1
     (by decide) (by decide) (by decide),
   (determineHeadingLevel_spec "1.1.1 Detail".toList 10 false 16 14 12).2.2.2
     (by decide) (by decide) (by decide) (by decide)⟩

/-! ### Claim C2 -/

/-- C2 counterexample: `"HEADER ONE"` is a heading-pattern line, yet a page
consisting of it followed by 150 characters of body yields one Section
titled `"Introduction"`, not `"HEADER ONE"` — a heading hitting an empty
accumulator is absorbed into the body instead of becoming the title. -/
theorem sectionTitle_counterexample :
    isHeaderLine "HEADER ONE".toList = true ∧
    (identifySections [(1, "HEADER ONE\n".toList ++ List.replicate 150 'a')]
      "doc.pdf".toList).map (·.title) = ["Introduction".toList] ∧
    "Introduction".toList ≠ "HEADER ONE".toList := by decide

theorem splitLinesAux_of_not_mem (l : List Char) (h : '\n' ∉ l) :
    ∀ acc, splitLinesAux l acc = [acc.reverse ++ l] := by
  induction l with
  | nil => intro acc; simp [splitLinesAux]
  | cons c t ih =>
    intro acc
    have hc : ¬(c = '\n') := fun e => h (e ▸ List.mem_cons_self _ _)
    have ht : '\n' ∉ t := fun e => h (List.mem_cons_of_mem _ e)
    unfold splitLinesAux
    rw [if_neg hc, ih ht (c :: acc)]
    simp

theorem splitLinesAux_append (l r : List Char) (h : '\n' ∉ l) :
    ∀ acc, splitLinesAux (l ++ '\n' :: r) acc = (acc.reverse ++ l) :: splitLinesAux r [] := by
  induction l with
  | nil => intro acc; simp [splitLinesAux]
  | cons c t ih =>
    intro acc
    have hc : ¬(c = '\n') := fun e => h (e ▸ List.mem_cons_self _ _)
    have ht : '\n' ∉ t := fun e => h (List.mem_cons_of_mem _ e)
    rw [List.cons_append]
    rw [show splitLinesAux (c :: (t ++ '\n' :: r)) acc =
        (if c = '\n' then acc.reverse :: splitLinesAux (t ++ '\n' :: r) []
         else splitLinesAux (t ++ '\n' :: r) (c :: acc)) from rfl]
    rw [if_neg hc, ih ht (c :: acc)]
    simp

/-- C2 (amended): a page whose text is `"HEADER ONE\nshort"` produces no
Section, and a page made of one heading-pattern line and one non-heading
body line whose accumulated body exceeds 100 characters produces exactly
one Section — but its title is the seed `"Introduction"`, the heading line
being absorbed into the body (the accumulator was empty when the heading
arrived). -/
theorem headingPage_sections (d : List Char) (p : Nat) (hl body : List Char)
    (hnl1 : '\n' ∉ hl) (hnl2 : '\n' ∉ body)
    (hhl : ¬(pyStrip hl = [])) (hhead : isHeaderLine (pyStrip hl) = true)
    (hb : ¬(pyStrip body = [])) (hbody : isHeaderLine (pyStrip body) = false)
    (hlen : 100 < (pyStrip hl).length + (pyStrip body).length + 2) :
    identifySections [(p, "HEADER ONE\nshort".toList)] d = [] ∧
    identifySections [(p, hl ++ '\n' :: body)] d =
      [⟨d, p, "Introduction".toList,
        pyStrip ((pyStrip hl ++ [' ']) ++ pyStrip body ++ [' '])⟩] := by
  constructor
  · rfl
  · unfold identifySections
    simp only [List.flatMap_cons, List.flatMap_nil, List.append_nil]
    unfold splitLines
    rw [splitLinesAux_append hl body hnl1 [], splitLinesAux_of_not_mem body hnl2 []]
    simp only [List.reverse_nil, List.nil_append]
    unfold sectionStep
    dsimp only
    rw [if_neg hhl, if_neg (fun hcon => hcon.2 rfl)]
    unfold sectionStep
    dsimp only
    rw [if_neg hb, if_neg (fun hcon => by rw [hbody] at hcon; exact Bool.false_ne_true hcon.1)]
    unfold sectionStep
    have hcond : (((([] : List Char) ++ pyStrip hl ++ [' ']) ++ pyStrip body ++ [' ']) ≠ [] ∧
        100 < (((([] : List Char) ++ pyStrip hl ++ [' ']) ++ pyStrip body ++ [' ']).length)) := by
      constructor
      · simp
      · simp only [List.length_append, List.nil_append, List.length_cons, List.length_nil]
        omega
    rw [if_pos hcond]
    simp

/-- Witness for C2 at a concrete page. -/
theorem headingPage_sections_witness :
    identifySections [(1, "HEADER ONE\n".toList ++ List.replicate 150 'a')] "doc.pdf".toList =
      [⟨"doc.pdf".toList, 1, "Introduction".toList,
        pyStrip ((pyStrip "HEADER ONE".toList ++ [' ']) ++
          pyStrip (List.replicate 150 'a') ++ [' '])⟩] :=
  (headingPage_sections "doc.pdf".toList 1 "HEADER ONE".toList (List.replicate 150 'a')
    (by decide) (by decide) (by decide) (by decide) (by decide) (by decide) (by decide)).2

/-! ### Properties of the rank-assignment loop -/

theorem assignRanks_length : ∀ (i : Nat) (l : List ScoredSection),
    (assignRanks i l).length = l.length
  | _, [] => rfl
  | i, _ :: t => by
    unfold assignRanks
    simp only [List.length_cons, assignRanks_length (i + 1) t]

theorem assignRanks_map_rank : ∀ (i : Nat) (l : List ScoredSection),
    (assignRanks i l).map (·.importance_rank) =
      (List.range l.length).map (fun k => ((i + k : ℕ) : ℚ))
  | _, [] => rfl
  | i, s :: t => by
    unfold assignRanks
    rw [List.map_cons, assignRanks_map_rank (i + 1) t, List.length_cons,
      List.range_succ_eq_map, List.map_cons, List.map_map]
    congr 1
    apply List.map_congr_left
    intro a _
    simp only [Function.comp_apply, Nat.succ_eq_add_one]
    congr 1
    omega

theorem assignRanks_mem : ∀ {i : Nat} {l : List ScoredSection} {s : ScoredSection},
    s ∈ assignRanks i l → ∃ y ∈ l, s.document = y.document ∧ s.page_number = y.page_number ∧
      s.section_title = y.section_title ∧ s.text = y.text
  | i, [], s, h => by simp [assignRanks] at h
  | i, y :: t, s, h => by
    unfold assignRanks at h
    rcases List.mem_cons.mp h with rfl | h2
    · exact ⟨y, List.mem_cons_self _ _, rfl, rfl, rfl, rfl⟩
    · obtain ⟨z, hz, hf⟩ := assignRanks_mem h2
      exact ⟨z, List.mem_cons_of_mem _ hz, hf⟩

theorem assignRanks_take : ∀ (i n : Nat) (l : List ScoredSection),
    (assignRanks i l).take n = assignRanks i (l.take n)
  | _, _, [] => by simp [assignRanks]
  | i, 0, s :: t => by simp [assignRanks]
  | i, n + 1, s :: t => by
    unfold assignRanks
    simp only [List.take_succ_cons, assignRanks_take (i + 1) n t]

/-! ### The sort commutes with mapping that preserves the key -/

theorem insertDesc_map {α γ β : Type} [LinearOrder β] (f : α → γ) (key1 : α → β)
    (key2 : γ → β) (hkey : ∀ a, key2 (f a) = key1 a) (x : α) :
    ∀ l : List α, insertDesc key2 (f x) (l.map f) = (insertDesc key1 x l).map f
  | [] => rfl
  | y :: t => by
    unfold insertDesc
    simp only [List.map_cons]
    by_cases h : key1 x < key1 y
    · rw [if_pos (by rw [hkey, hkey]; exact h), if_pos h, List.map_cons,
        insertDesc_map f key1 key2 hkey x t]
    · rw [if_neg (by rw [hkey, hkey]; exact h), if_neg h]
      simp

theorem pySortDesc_map {α γ β : Type} [LinearOrder β] (f : α → γ) (key1 : α → β)
    (key2 : γ → β) (hkey : ∀ a, key2 (f a) = key1 a) :
    ∀ l : List α, pySortDesc key2 (l.map f) = (pySortDesc key1 l).map f
  | [] => rfl
  | x :: t => by
    simp only [List.map_cons]
    unfold pySortDesc
    rw [pySortDesc_map f key1 key2 hkey t, insertDesc_map f key1 key2 hkey x]

/-! ### Claim C8 -/

/-- C8: in persona mode a document whose extraction fails is excluded from
the analyzed set while the others are processed, and `analyze_documents`
raises (returns no result) exactly when every document in the batch fails
extraction. -/
theorem analyzeDocuments_skip_and_fail
    (files : List (List Char × Option (List (Nat × List Char))))
    (persona job timestamp : List Char) :
    ((∃ e, analyzeDocuments files persona job timestamp = .error e) ↔
      ∀ f ∈ files, f.2 = none) ∧
    (∀ r, analyzeDocuments files persona job timestamp = .ok r →
      r.input_documents = files.filterMap (fun f => f.2.map (fun _ => f.1))) := by
  unfold analyzeDocuments
  dsimp only
  constructor
  · constructor
    · rintro ⟨e, he⟩
      by_cases h : (files.filterMap fun f => f.2.map (fun content => DocContent.mk f.1 content)) = []
      · intro f hf
        have := List.filterMap_eq_nil_iff.mp h f hf
        simpa using this
      · rw [if_neg h] at he
        exact absurd he (by simp)
    · intro hall
      have h : (files.filterMap fun f => f.2.map (fun content => DocContent.mk f.1 content)) = [] :=
        List.filterMap_eq_nil_iff.mpr (fun f hf => by simp [hall f hf])
      rw [if_pos h]
      exact ⟨_, rfl⟩
  · intro r hr
    by_cases h : (files.filterMap fun f => f.2.map (fun content => DocContent.mk f.1 content)) = []
    · rw [if_pos h] at hr
      exact absurd hr (by simp)
    · rw [if_neg h] at hr
      have hrec := Except.ok.inj hr
      rw [← hrec]
      dsimp only
      rw [List.map_filterMap]
      simp only [Option.map_map]
      rfl

/-- Witness for C8 at a concrete batch: one failing and one succeeding
document. -/
theorem analyzeDocuments_skip_and_fail_witness :
    ((∃ e, analyzeDocuments
        [("a.pdf".toList, none), ("b.pdf".toList, some [(1, "x".toList)])]
        "p".toList "j".toList "t".toList = .error e) ↔
      ∀ f ∈ [(("a.pdf".toList : List Char), (none : Option (List (Nat × List Char)))),
        ("b.pdf".toList, some [(1, "x".toList)])], f.2 = none) :=
  (analyzeDocuments_skip_and_fail _ "p".toList "j".toList "t".toList).1

/-! ### Claim C4 -/

/-- C4: the retained top-K sections (K ≤ 20) carry the ranks 1..K exactly,
in order; the underlying sort is stable-descending by score (pairwise
descending, and ties keep the original extraction order, stated as filter
invariance per score class); and each retained section's output text is its
body truncated to the first 500 characters. -/
theorem extractRelevantSections_ranking (docs : List DocContent) (persona job : List Char) :
    ((extractRelevantSections docs persona job).map (·.importance_rank) =
      (List.range (extractRelevantSections docs persona job).length).map
        (fun k => ((k + 1 : ℕ) : ℚ))) ∧
    (extractRelevantSections docs persona job).length ≤ 20 ∧
    (sortByScoreDesc (scoredSectionsOf docs persona job)).Pairwise
      (fun a b => b.importance_rank ≤ a.importance_rank) ∧
    (∀ q : ℚ, (sortByScoreDesc (scoredSectionsOf docs persona job)).filter
        (fun s => decide (s.importance_rank = q)) =
      (scoredSectionsOf docs persona job).filter (fun s => decide (s.importance_rank = q))) ∧
    (∀ s ∈ extractRelevantSections docs persona job, s.text.length ≤ 500 ∧
      ∃ sec ∈ allSectionsOf docs, s.document = sec.document ∧ s.page_number = sec.page ∧
        s.section_title = sec.title ∧ s.text = sec.text.take 500) := by
  refine ⟨?_, ?_, ?_, ?_, ?_⟩
  · unfold extractRelevantSections
    rw [assignRanks_map_rank, assignRanks_length]
    apply List.map_congr_left
    intro a _
    congr 1
    omega
  · unfold extractRelevantSections
    rw [assignRanks_length]
    exact List.length_take_le _ _
  · unfold sortByScoreDesc
    exact pySortDesc_pairwise _ _
  · intro q
    unfold sortByScoreDesc
    exact pySortDesc_filter_eq _ q _
  · intro s hs
    unfold extractRelevantSections at hs
    obtain ⟨y, hy, hdoc, hpage, htitle, htext⟩ := assignRanks_mem hs
    have hy1 : y ∈ sortByScoreDesc (scoredSectionsOf docs persona job) :=
      List.mem_of_mem_take hy
    have hy2 : y ∈ scoredSectionsOf docs persona job := by
      unfold sortByScoreDesc at hy1
      exact (pySortDesc_perm _ _).mem_iff.mp hy1
    unfold scoredSectionsOf at hy2
    obtain ⟨sec, hsec, rfl⟩ := List.mem_map.mp hy2
    refine ⟨?_, sec, hsec, hdoc, hpage, htitle, htext⟩
    rw [htext]
    exact List.length_take_le _ _

unseal Rat.add Rat.mul Rat.inv Rat.sub in
/-- Witness for C4 on a one-document batch producing one section. -/
theorem extractRelevantSections_ranking_witness :
    ({ document := "d.pdf".toList, page_number := 1,
       section_title := "Introduction".toList, importance_rank := (1 : ℚ),
       text := List.replicate 150 'a' } : ScoredSection).text.length ≤ 500 ∧
    ∃ sec ∈ allSectionsOf [⟨"d.pdf".toList, [(1, List.replicate 150 'a')]⟩],
      ("d.pdf".toList : List Char) = sec.document ∧ (1 : Nat) = sec.page ∧
      ("Introduction".toList : List Char) = sec.title ∧
      (List.replicate 150 'a' : List Char) = sec.text.take 500 :=
  (extractRelevantSections_ranking [⟨"d.pdf".toList, [(1, List.replicate 150 'a')]⟩]
    "p".toList "j".toList).2.2.2.2 _ (by decide)

/-! ### Claim C3 -/

unseal Rat.add Rat.mul Rat.inv Rat.sub in
/-- C3 counterexample: on `truncProbeDoc` the actual subsection analysis
(fed the 500-character-truncated section bodies) produces 1 refined
excerpt, while the claimed pre-truncation reading would produce 2; the
outputs differ. -/
theorem subsection_pretruncation_counterexample :
    (analyzeSubsections
        (extractRelevantSections [truncProbeDoc] "alpha beta".toList "gamma delta".toList)
        "alpha beta".toList "gamma delta".toList).length = 1 ∧
    (analyzeSubsections
        (extractRelevantSectionsPre [truncProbeDoc] "alpha beta".toList "gamma delta".toList)
        "alpha beta".toList "gamma delta".toList).length = 2 ∧
    analyzeSubsections
        (extractRelevantSections [truncProbeDoc] "alpha beta".toList "gamma delta".toList)
        "alpha beta".toList "gamma delta".toList ≠
      analyzeSubsections
        (extractRelevantSectionsPre [truncProbeDoc] "alpha beta".toList "gamma delta".toList)
        "alpha beta".toList "gamma delta".toList := by
  decide

theorem assignRanks_flatMap_eq (persona job : List Char) : ∀ (l : List Section) (i : Nat),
    (assignRanks i (l.map (toScoredSection persona job))).flatMap
      (fun sec => subsectionEntries persona job sec.document sec.page_number sec.text) =
    l.flatMap
      (fun sec => subsectionEntries persona job sec.document sec.page (sec.text.take 500))
  | [], _ => rfl
  | s :: t, i => by
    simp only [List.map_cons]
    unfold assignRanks
    simp only [List.flatMap_cons]
    rw [assignRanks_flatMap_eq persona job t (i + 1)]
    rfl

/-- C3 (amended): the subsection refiner consumes, for each of the top 10
ranked sections, the section's post-truncation (500-character) body: the
composed pipeline equals the spec-style description with the truncation
point placed before sentence splitting. -/
theorem analyzeSubsections_trunc_spec (docs : List DocContent) (persona job : List Char) :
    analyzeSubsections (extractRelevantSections docs persona job) persona job =
      specSubsectionAnalysisTrunc docs persona job := by
  unfold analyzeSubsections specSubsectionAnalysisTrunc
  dsimp only
  congr 1
  congr 1
  unfold extractRelevantSections sortByScoreDesc
  rw [assignRanks_take, List.take_take]
  rw [show min 10 20 = 10 from rfl]
  unfold scoredSectionsOf
  rw [pySortDesc_map (toScoredSection persona job)
      (fun s : Section => calculateRelevance s.text persona job)
      (fun s : ScoredSection => s.importance_rank) (fun a => rfl)]
  rw [← List.map_take]
  exact assignRanks_flatMap_eq persona job _ 1

end PdfChallenge
